import Mathlib

/-!
Verification of the extension layer of an IMAP client library: the tagged
response collectors of the quota extension (src/async-imap/src/extensions/quota.rs)
and the compression extension (src/async-imap/src/extensions/compress.rs).

The collectors are shallowly embedded as pure functions over a finite list of
stream items. One item of the Rust response stream has type
io::Result of ResponseData; it is embedded as Except String Response, where
the error branch models an I/O error surfaced by the stream. The unsolicited
channel is embedded as the list of frames published to it, in publish order.
The mutable stream argument is embedded by returning the list of items not yet
consumed together with the function result.
-/

namespace AsyncImap

/-- Quota record of the data model: resource name, current usage, limit.
Modelled from the spec: the concrete Quota type lives in the imap-proto
crate outside src/. -/
structure Quota where
  name : String
  usage : Nat
  limit : Nat
deriving DecidableEq, Repr

/-- QuotaRoot record of the data model: a mailbox name plus the ordered
sequence of quota-root names applying to it. Modelled from the spec: the
concrete type lives outside src/. -/
structure QuotaRoot where
  mailbox_name : String
  quota_root_names : List String
deriving DecidableEq, Repr

/-- One parsed server response frame, restricted to the shapes the quota
collectors distinguish: a Quota payload, a QuotaRoot payload, a tagged
completion frame (Response::Done with its tag), and any other frame.
Modelled from the spec: the full Response grammar lives in imap-proto
outside src/. -/
inductive Response where
  | quota (q : Quota)
  | quotaRoot (qr : QuotaRoot)
  | done (tag : String)
  | other (info : String)
deriving DecidableEq, Repr

/-- Errors the embedded collectors can produce: an I/O error propagated from
the stream, and Error::Parse (ParseError::ExpectedResponseNotFound msg). -/
inductive ImapError where
  | ioErr (e : String)
  | parseExpectedResponseNotFound (msg : String)
deriving DecidableEq, Repr

/-- Modelled from the spec: crate::parse::filter (not under src/) is the
take_while predicate of both collectors. It returns false exactly on the
successfully parsed completion frame carrying the given command tag, so that
take_while consumes that frame and stops; every other item, including stream
errors and completion frames of other tags, passes through. -/
def filter (res : Except String Response) (command_tag : String) : Bool :=
  match res with
  | Except.ok (Response.done t) => t != command_tag
  | _ => true

/-- Modelled from the spec: crate::parse::handle_unilateral (not under src/)
publishes a frame on the unsolicited-response channel. The channel is
embedded as the list of frames published so far, in publish order. -/
def handle_unilateral (resp : Response) (unsolicited : List Response) : List Response :=
  unsolicited ++ [resp]

/-- The while-let loop of parse_get_quota (quota.rs lines 23-36): pull the
next item while filter holds; propagate a stream error; on a Quota payload
overwrite the accumulator (keep last); forward any other frame to the
unsolicited channel; stop, consuming the item, when filter fails.
Returns (loop outcome with accumulator, unsolicited channel, unconsumed items). -/
def parse_get_quota_loop (command_tag : String) (quota : Option Quota)
    (unsolicited : List Response) :
    List (Except String Response) →
      Except ImapError (Option Quota) × List Response × List (Except String Response)
  | [] => (Except.ok quota, unsolicited, [])
  | res :: rest =>
    if filter res command_tag then
      match res with
      | Except.error e => (Except.error (ImapError.ioErr e), unsolicited, rest)
      | Except.ok r =>
        match r with
        | Response.quota q => parse_get_quota_loop command_tag (some q) unsolicited rest
        | _ => parse_get_quota_loop command_tag quota (handle_unilateral r unsolicited) rest
    else
      (Except.ok quota, unsolicited, rest)

/-- parse_get_quota (quota.rs lines 18-44): run the loop with an empty
accumulator; afterwards return the accumulated Quota, or
ExpectedResponseNotFound when none was accumulated. The second and third
components expose the unsolicited channel and the unconsumed stream items. -/
def parse_get_quota (command_tag : String) (frames : List (Except String Response)) :
    Except ImapError Quota × List Response × List (Except String Response) :=
  match parse_get_quota_loop command_tag none [] frames with
  | (Except.error e, u, rest) => (Except.error e, u, rest)
  | (Except.ok (some q), u, rest) => (Except.ok q, u, rest)
  | (Except.ok none, u, rest) =>
    (Except.error (ImapError.parseExpectedResponseNotFound
      "Quota, no quota response found"), u, rest)

/-- The while-let loop of parse_get_quota_root (quota.rs lines 51-71):
QuotaRoot payloads are appended to roots, Quota payloads are appended to
quotas, anything else is forwarded to the unsolicited channel; the loop
stops, consuming the item, when filter fails. -/
def parse_get_quota_root_loop (command_tag : String) (roots : List QuotaRoot)
    (quotas : List Quota) (unsolicited : List Response) :
    List (Except String Response) →
      Except ImapError (List QuotaRoot × List Quota) × List Response ×
        List (Except String Response)
  | [] => (Except.ok (roots, quotas), unsolicited, [])
  | res :: rest =>
    if filter res command_tag then
      match res with
      | Except.error e => (Except.error (ImapError.ioErr e), unsolicited, rest)
      | Except.ok r =>
        match r with
        | Response.quotaRoot qr =>
          parse_get_quota_root_loop command_tag (roots ++ [qr]) quotas unsolicited rest
        | Response.quota q =>
          parse_get_quota_root_loop command_tag roots (quotas ++ [q]) unsolicited rest
        | _ =>
          parse_get_quota_root_loop command_tag roots quotas
            (handle_unilateral r unsolicited) rest
    else
      (Except.ok (roots, quotas), unsolicited, rest)

/-- parse_get_quota_root (quota.rs lines 46-74): run the loop with empty
accumulators and return the two accumulated sequences unconditionally. -/
def parse_get_quota_root (command_tag : String) (frames : List (Except String Response)) :
    Except ImapError (List QuotaRoot × List Quota) × List Response ×
      List (Except String Response) :=
  parse_get_quota_root_loop command_tag [] [] [] frames

/-- Whether a frame is a Quota payload (the shape parse_get_quota accumulates). -/
def isQuotaFrame : Response → Bool
  | Response.quota _ => true
  | _ => false

/-- Whether a frame is a Quota or QuotaRoot payload (the shapes
parse_get_quota_root accumulates). -/
def isQuotaOrRootFrame : Response → Bool
  | Response.quota _ => true
  | Response.quotaRoot _ => true
  | _ => false

/-- The keep-last accumulation of parse_get_quota over a block of frames:
each Quota payload overwrites the accumulator, every other frame leaves it. -/
def keepLastQuota (q0 : Option Quota) : List Response → Option Quota
  | [] => q0
  | Response.quota q :: rs => keepLastQuota (some q) rs
  | _ :: rs => keepLastQuota q0 rs

/-- The QuotaRoot payloads of a block of frames, in arrival order. -/
def rootsOf : List Response → List QuotaRoot
  | [] => []
  | Response.quotaRoot qr :: rs => qr :: rootsOf rs
  | _ :: rs => rootsOf rs

/-- The Quota payloads of a block of frames, in arrival order. -/
def quotasOf : List Response → List Quota
  | [] => []
  | Response.quota q :: rs => q :: quotasOf rs
  | _ :: rs => quotasOf rs

/-- The frames parse_get_quota forwards to the unsolicited channel out of a
block of frames: everything that is not a Quota payload, in arrival order. -/
def quotaUnsolicited : List Response → List Response
  | [] => []
  | Response.quota _ :: rs => quotaUnsolicited rs
  | r :: rs => r :: quotaUnsolicited rs

/-- The frames parse_get_quota_root forwards to the unsolicited channel out
of a block of frames: everything that is neither a Quota nor a QuotaRoot
payload, in arrival order. -/
def rootUnsolicited : List Response → List Response
  | [] => []
  | Response.quota _ :: rs => rootUnsolicited rs
  | Response.quotaRoot _ :: rs => rootUnsolicited rs
  | r :: rs => r :: rootUnsolicited rs

/-- Modelled from the spec: IdGenerator (crate::types, not under src/) is a
process-local monotonic counter producing correlation tags; its constructor
starts the counter at its initial value. -/
structure IdGenerator where
  next : Nat
deriving DecidableEq, Repr

/-- Modelled from the spec: a freshly constructed IdGenerator restarts the
counter at its initial value. -/
def IdGenerator.new : IdGenerator := ⟨0⟩

/-- Value-level model of the async-compression DeflateEncoder wrapper
(external crate): it exclusively owns the wrapped writer. -/
structure DeflateEncoder (T : Type) where
  inner : T
deriving DecidableEq, Repr

def DeflateEncoder.new (stream : T) : DeflateEncoder T := ⟨stream⟩

def DeflateEncoder.get_ref (s : DeflateEncoder T) : T := s.inner

def DeflateEncoder.get_mut (s : DeflateEncoder T) : T := s.inner

def DeflateEncoder.into_inner (s : DeflateEncoder T) : T := s.inner

/-- Value-level model of the BufReader wrapper (standard library of the
async runtime): it exclusively owns the wrapped reader. -/
structure BufReader (T : Type) where
  inner : T
deriving DecidableEq, Repr

def BufReader.new (stream : T) : BufReader T := ⟨stream⟩

def BufReader.get_ref (s : BufReader T) : T := s.inner

def BufReader.get_mut (s : BufReader T) : T := s.inner

def BufReader.into_inner (s : BufReader T) : T := s.inner

/-- Value-level model of the async-compression DeflateDecoder wrapper
(external crate): it exclusively owns the wrapped reader. -/
structure DeflateDecoder (T : Type) where
  inner : T
deriving DecidableEq, Repr

def DeflateDecoder.new (stream : T) : DeflateDecoder T := ⟨stream⟩

def DeflateDecoder.get_ref (s : DeflateDecoder T) : T := s.inner

def DeflateDecoder.get_mut (s : DeflateDecoder T) : T := s.inner

def DeflateDecoder.into_inner (s : DeflateDecoder T) : T := s.inner

/-- DeflateStream (compress.rs lines 35-38): a network stream compressed
with DEFLATE, holding a DeflateDecoder over a BufReader over a
DeflateEncoder over the inner transport. -/
structure DeflateStream (T : Type) where
  inner : DeflateDecoder (BufReader (DeflateEncoder T))
deriving DecidableEq, Repr

/-- DeflateStream::new (compress.rs lines 41-46). -/
def DeflateStream.new (stream : T) : DeflateStream T :=
  let stream := DeflateEncoder.new stream
  let stream := BufReader.new stream
  let stream := DeflateDecoder.new stream
  ⟨stream⟩

/-- DeflateStream::get_ref (compress.rs lines 49-51): a reference to the
underlying stream, three wrapper layers down. -/
def DeflateStream.get_ref (s : DeflateStream T) : T :=
  s.inner.get_ref.get_ref.get_ref

/-- DeflateStream::get_mut (compress.rs lines 54-56). -/
def DeflateStream.get_mut (s : DeflateStream T) : T :=
  s.inner.get_mut.get_mut.get_mut

/-- DeflateStream::into_inner (compress.rs lines 59-61): consumes the
DeflateStream and returns the underlying stream. -/
def DeflateStream.into_inner (s : DeflateStream T) : T :=
  s.inner.into_inner.into_inner.into_inner

/-- Modelled from the spec: ImapStream (crate::imap_stream, not under src/)
is the buffered text-framing stream the protocol layer reads and writes; its
constructor wraps the given transport. -/
structure ImapStream (S : Type) where
  inner : S
deriving DecidableEq, Repr

def ImapStream.new (stream : S) : ImapStream S := ⟨stream⟩

/-- Modelled from the spec: Connection (root crate, not under src/) owns the
ImapStream and the IdGenerator producing the correlation tags. -/
structure Connection (T : Type) where
  stream : ImapStream T
  request_ids : IdGenerator
deriving DecidableEq, Repr

/-- Modelled from the spec: Connection::into_inner takes ownership of the
raw transport out of the connection object. -/
def Connection.into_inner (c : Connection T) : T := c.stream.inner

/-- Modelled from the spec: Session owns the connection plus the sender and
receiver sides of the unsolicited-response channel. The channel handles are
embedded as opaque identifiers. -/
structure Session (T : Type) where
  conn : Connection T
  unsolicited_responses_tx : Nat
  unsolicited_responses : Nat
deriving DecidableEq, Repr

/-- Session::compress (compress.rs lines 166-192). The outcome of
run_command_and_check_ok "COMPRESS DEFLATE" is not under src/; it is
modelled from the spec as the explicit argument cmdResult (ok on a
successful completion, error on a failed completion status or an I/O or
parse error), and the question-mark operator on it is the error match arm.
On success the raw transport is taken out of the connection, wrapped in a
DeflateStream, optionally wrapped further by the caller-supplied f, wrapped
in a fresh ImapStream, and the connection and session are rebuilt around it
with a fresh IdGenerator, keeping both unsolicited channel handles. -/
def Session.compress (self : Session T) (cmdResult : Except ImapError Unit)
    (f : DeflateStream T → S) : Except ImapError (Session S) :=
  match cmdResult with
  | Except.error e => Except.error e
  | Except.ok _ =>
    let stream := Connection.into_inner self.conn
    let deflate_stream := DeflateStream.new stream
    let stream := ImapStream.new (f deflate_stream)
    let conn : Connection S := { stream := stream, request_ids := IdGenerator.new }
    Except.ok { conn := conn,
                unsolicited_responses_tx := self.unsolicited_responses_tx,
                unsolicited_responses := self.unsolicited_responses }

theorem filter_ok_of_ne (command_tag : String) (r : Response)
    (h : r ≠ Response.done command_tag) :
    filter (Except.ok r) command_tag = true := by
  cases r with
  | done t =>
    simp only [filter, bne_iff_ne, ne_eq]
    intro he
    exact h (by rw [he])
  | quota q => rfl
  | quotaRoot qr => rfl
  | other s => rfl

theorem filter_done_eq_false (command_tag : String) :
    filter (Except.ok (Response.done command_tag)) command_tag = false := by
  simp [filter]

theorem parse_get_quota_loop_complete (command_tag : String) (pre : List Response)
    (rest : List (Except String Response)) (q0 : Option Quota) (u0 : List Response)
    (h : ∀ r ∈ pre, r ≠ Response.done command_tag) :
    parse_get_quota_loop command_tag q0 u0
        (pre.map Except.ok ++ Except.ok (Response.done command_tag) :: rest)
      = (Except.ok (keepLastQuota q0 pre), u0 ++ quotaUnsolicited pre, rest) := by
  induction pre generalizing q0 u0 with
  | nil =>
    simp [parse_get_quota_loop, filter_done_eq_false, keepLastQuota, quotaUnsolicited]
  | cons r rs ih =>
    have hr : r ≠ Response.done command_tag := h r (List.mem_cons_self r rs)
    have hrs : ∀ x ∈ rs, x ≠ Response.done command_tag := fun x hx =>
      h x (List.mem_cons_of_mem r hx)
    have ih2 := fun a b => ih a b hrs
    cases r with
    | quota q =>
      simp [parse_get_quota_loop, filter_ok_of_ne _ _ hr, keepLastQuota,
        quotaUnsolicited, ih2]
    | quotaRoot qr =>
      simp [parse_get_quota_loop, filter_ok_of_ne _ _ hr, keepLastQuota,
        quotaUnsolicited, handle_unilateral, ih2]
    | done t =>
      simp [parse_get_quota_loop, filter_ok_of_ne _ _ hr, keepLastQuota,
        quotaUnsolicited, handle_unilateral, ih2]
    | other s =>
      simp [parse_get_quota_loop, filter_ok_of_ne _ _ hr, keepLastQuota,
        quotaUnsolicited, handle_unilateral, ih2]

theorem parse_get_quota_loop_exhausted (command_tag : String) (pre : List Response)
    (q0 : Option Quota) (u0 : List Response)
    (h : ∀ r ∈ pre, r ≠ Response.done command_tag) :
    parse_get_quota_loop command_tag q0 u0 (pre.map Except.ok)
      = (Except.ok (keepLastQuota q0 pre), u0 ++ quotaUnsolicited pre, []) := by
  induction pre generalizing q0 u0 with
  | nil =>
    simp [parse_get_quota_loop, keepLastQuota, quotaUnsolicited]
  | cons r rs ih =>
    have hr : r ≠ Response.done command_tag := h r (List.mem_cons_self r rs)
    have hrs : ∀ x ∈ rs, x ≠ Response.done command_tag := fun x hx =>
      h x (List.mem_cons_of_mem r hx)
    have ih2 := fun a b => ih a b hrs
    cases r with
    | quota q =>
      simp [parse_get_quota_loop, filter_ok_of_ne _ _ hr, keepLastQuota,
        quotaUnsolicited, ih2]
    | quotaRoot qr =>
      simp [parse_get_quota_loop, filter_ok_of_ne _ _ hr, keepLastQuota,
        quotaUnsolicited, handle_unilateral, ih2]
    | done t =>
      simp [parse_get_quota_loop, filter_ok_of_ne _ _ hr, keepLastQuota,
        quotaUnsolicited, handle_unilateral, ih2]
    | other s =>
      simp [parse_get_quota_loop, filter_ok_of_ne _ _ hr, keepLastQuota,
        quotaUnsolicited, handle_unilateral, ih2]

theorem parse_get_quota_root_loop_complete (command_tag : String) (pre : List Response)
    (rest : List (Except String Response)) (r0 : List QuotaRoot) (qs0 : List Quota)
    (u0 : List Response)
    (h : ∀ r ∈ pre, r ≠ Response.done command_tag) :
    parse_get_quota_root_loop command_tag r0 qs0 u0
        (pre.map Except.ok ++ Except.ok (Response.done command_tag) :: rest)
      = (Except.ok (r0 ++ rootsOf pre, qs0 ++ quotasOf pre),
         u0 ++ rootUnsolicited pre, rest) := by
  induction pre generalizing r0 qs0 u0 with
  | nil =>
    simp [parse_get_quota_root_loop, filter_done_eq_false, rootsOf, quotasOf,
      rootUnsolicited]
  | cons r rs ih =>
    have hr : r ≠ Response.done command_tag := h r (List.mem_cons_self r rs)
    have hrs : ∀ x ∈ rs, x ≠ Response.done command_tag := fun x hx =>
      h x (List.mem_cons_of_mem r hx)
    have ih2 := fun a b c => ih a b c hrs
    cases r with
    | quota q =>
      simp [parse_get_quota_root_loop, filter_ok_of_ne _ _ hr, rootsOf, quotasOf,
        rootUnsolicited, ih2]
    | quotaRoot qr =>
      simp [parse_get_quota_root_loop, filter_ok_of_ne _ _ hr, rootsOf, quotasOf,
        rootUnsolicited, ih2]
    | done t =>
      simp [parse_get_quota_root_loop, filter_ok_of_ne _ _ hr, rootsOf, quotasOf,
        rootUnsolicited, handle_unilateral, ih2]
    | other s =>
      simp [parse_get_quota_root_loop, filter_ok_of_ne _ _ hr, rootsOf, quotasOf,
        rootUnsolicited, handle_unilateral, ih2]

theorem parse_get_quota_root_loop_exhausted (command_tag : String) (pre : List Response)
    (r0 : List QuotaRoot) (qs0 : List Quota) (u0 : List Response)
    (h : ∀ r ∈ pre, r ≠ Response.done command_tag) :
    parse_get_quota_root_loop command_tag r0 qs0 u0 (pre.map Except.ok)
      = (Except.ok (r0 ++ rootsOf pre, qs0 ++ quotasOf pre),
         u0 ++ rootUnsolicited pre, []) := by
  induction pre generalizing r0 qs0 u0 with
  | nil =>
    simp [parse_get_quota_root_loop, rootsOf, quotasOf, rootUnsolicited]
  | cons r rs ih =>
    have hr : r ≠ Response.done command_tag := h r (List.mem_cons_self r rs)
    have hrs : ∀ x ∈ rs, x ≠ Response.done command_tag := fun x hx =>
      h x (List.mem_cons_of_mem r hx)
    have ih2 := fun a b c => ih a b c hrs
    cases r with
    | quota q =>
      simp [parse_get_quota_root_loop, filter_ok_of_ne _ _ hr, rootsOf, quotasOf,
        rootUnsolicited, ih2]
    | quotaRoot qr =>
      simp [parse_get_quota_root_loop, filter_ok_of_ne _ _ hr, rootsOf, quotasOf,
        rootUnsolicited, ih2]
    | done t =>
      simp [parse_get_quota_root_loop, filter_ok_of_ne _ _ hr, rootsOf, quotasOf,
        rootUnsolicited, handle_unilateral, ih2]
    | other s =>
      simp [parse_get_quota_root_loop, filter_ok_of_ne _ _ hr, rootsOf, quotasOf,
        rootUnsolicited, handle_unilateral, ih2]

theorem quotaUnsolicited_sublist (l : List Response) : List.Sublist (quotaUnsolicited l) l := by
  induction l with
  | nil => simp [quotaUnsolicited]
  | cons r rs ih =>
    cases r with
    | quota q => exact List.Sublist.cons _ ih
    | quotaRoot qr => exact List.Sublist.cons₂ _ ih
    | done t => exact List.Sublist.cons₂ _ ih
    | other s => exact List.Sublist.cons₂ _ ih

theorem rootUnsolicited_sublist (l : List Response) : List.Sublist (rootUnsolicited l) l := by
  induction l with
  | nil => simp [rootUnsolicited]
  | cons r rs ih =>
    cases r with
    | quota q => exact List.Sublist.cons _ ih
    | quotaRoot qr => exact List.Sublist.cons _ ih
    | done t => exact List.Sublist.cons₂ _ ih
    | other s => exact List.Sublist.cons₂ _ ih

theorem keepLastQuota_of_no_quota (q0 : Option Quota) (l : List Response)
    (h : ∀ r ∈ l, isQuotaFrame r = false) : keepLastQuota q0 l = q0 := by
  induction l generalizing q0 with
  | nil => rfl
  | cons r rs ih =>
    have hr : isQuotaFrame r = false := h r (List.mem_cons_self r rs)
    have hrs : ∀ x ∈ rs, isQuotaFrame x = false := fun x hx =>
      h x (List.mem_cons_of_mem r hx)
    cases r with
    | quota q => simp [isQuotaFrame] at hr
    | quotaRoot qr => simp [keepLastQuota, ih q0 hrs]
    | done t => simp [keepLastQuota, ih q0 hrs]
    | other s => simp [keepLastQuota, ih q0 hrs]

theorem keepLastQuota_append (q0 : Option Quota) (a b : List Response) :
    keepLastQuota q0 (a ++ b) = keepLastQuota (keepLastQuota q0 a) b := by
  induction a generalizing q0 with
  | nil => rfl
  | cons r rs ih =>
    cases r with
    | quota q => simp [keepLastQuota, ih]
    | quotaRoot qr => simp [keepLastQuota, ih]
    | done t => simp [keepLastQuota, ih]
    | other s => simp [keepLastQuota, ih]

theorem rootsOf_of_no_payload (l : List Response)
    (h : ∀ r ∈ l, isQuotaOrRootFrame r = false) : rootsOf l = [] := by
  induction l with
  | nil => rfl
  | cons r rs ih =>
    have hr : isQuotaOrRootFrame r = false := h r (List.mem_cons_self r rs)
    have hrs : ∀ x ∈ rs, isQuotaOrRootFrame x = false := fun x hx =>
      h x (List.mem_cons_of_mem r hx)
    cases r with
    | quota q => simp [isQuotaOrRootFrame] at hr
    | quotaRoot qr => simp [isQuotaOrRootFrame] at hr
    | done t => simp [rootsOf, ih hrs]
    | other s => simp [rootsOf, ih hrs]

theorem quotasOf_of_no_payload (l : List Response)
    (h : ∀ r ∈ l, isQuotaOrRootFrame r = false) : quotasOf l = [] := by
  induction l with
  | nil => rfl
  | cons r rs ih =>
    have hr : isQuotaOrRootFrame r = false := h r (List.mem_cons_self r rs)
    have hrs : ∀ x ∈ rs, isQuotaOrRootFrame x = false := fun x hx =>
      h x (List.mem_cons_of_mem r hx)
    cases r with
    | quota q => simp [isQuotaOrRootFrame] at hr
    | quotaRoot qr => simp [isQuotaOrRootFrame] at hr
    | done t => simp [quotasOf, ih hrs]
    | other s => simp [quotasOf, ih hrs]

theorem parse_get_quota_snd (command_tag : String)
    (frames : List (Except String Response)) :
    (parse_get_quota command_tag frames).2
      = (parse_get_quota_loop command_tag none [] frames).2 := by
  unfold parse_get_quota
  rcases hres : parse_get_quota_loop command_tag none [] frames with ⟨res, u, rest⟩
  cases res with
  | error e => rfl
  | ok q => cases q <;> rfl

theorem parse_get_quota_fst (command_tag : String)
    (frames : List (Except String Response)) :
    (parse_get_quota command_tag frames).1
      = (match (parse_get_quota_loop command_tag none [] frames).1 with
         | Except.error e => Except.error e
         | Except.ok (some q) => Except.ok q
         | Except.ok none => Except.error (ImapError.parseExpectedResponseNotFound
             "Quota, no quota response found")) := by
  unfold parse_get_quota
  rcases hres : parse_get_quota_loop command_tag none [] frames with ⟨res, u, rest⟩
  cases res with
  | error e => rfl
  | ok q => cases q <;> rfl

/-- C1: for every frame sequence holding exactly one successfully parsed
completion frame for the collector tag (no completion frame for that tag
among the preceding frames), each collector returns control exactly once,
consuming the preceding frames and the completion frame and nothing after
it: the unconsumed remainder of the source is exactly the frames after the
completion frame, the unsolicited channel receives exactly the non-payload
frames preceding the completion frame, and the completion frame itself is
never forwarded to the unsolicited channel (and, having no payload shape,
is never accumulated). -/
theorem C1_collector_stops_at_unique_completion (command_tag : String)
    (pre post : List Response)
    (h : ∀ r ∈ pre, r ≠ Response.done command_tag) :
    (parse_get_quota command_tag
        (pre.map Except.ok ++ Except.ok (Response.done command_tag) :: post.map Except.ok)).2.2
      = post.map Except.ok ∧
    (parse_get_quota command_tag
        (pre.map Except.ok ++ Except.ok (Response.done command_tag) :: post.map Except.ok)).2.1
      = quotaUnsolicited pre ∧
    (parse_get_quota_root command_tag
        (pre.map Except.ok ++ Except.ok (Response.done command_tag) :: post.map Except.ok)).2.2
      = post.map Except.ok ∧
    (parse_get_quota_root command_tag
        (pre.map Except.ok ++ Except.ok (Response.done command_tag) :: post.map Except.ok)).2.1
      = rootUnsolicited pre ∧
    Response.done command_tag ∉ quotaUnsolicited pre ∧
    Response.done command_tag ∉ rootUnsolicited pre := by
  have hq := parse_get_quota_loop_complete command_tag pre (post.map Except.ok) none [] h
  have hr := parse_get_quota_root_loop_complete command_tag pre (post.map Except.ok)
    [] [] [] h
  have hsnd := parse_get_quota_snd command_tag
    (pre.map Except.ok ++ Except.ok (Response.done command_tag) :: post.map Except.ok)
  refine ⟨?_, ?_, ?_, ?_, ?_, ?_⟩
  · rw [hsnd, hq]
  · rw [hsnd, hq]; simp
  · unfold parse_get_quota_root; rw [hr]
  · unfold parse_get_quota_root; rw [hr]; simp
  · intro hm; exact h _ (List.Sublist.subset (quotaUnsolicited_sublist pre) hm) rfl
  · intro hm; exact h _ (List.Sublist.subset (rootUnsolicited_sublist pre) hm) rfl

theorem C1_witness :
    (∀ r ∈ [Response.other "x"], r ≠ Response.done "t1") ∧
    ((parse_get_quota "t1"
        [Except.ok (Response.other "x"), Except.ok (Response.done "t1"),
         Except.ok (Response.other "y")]).2.2 = [Except.ok (Response.other "y")] ∧
     (parse_get_quota "t1"
        [Except.ok (Response.other "x"), Except.ok (Response.done "t1"),
         Except.ok (Response.other "y")]).2.1 = quotaUnsolicited [Response.other "x"] ∧
     (parse_get_quota_root "t1"
        [Except.ok (Response.other "x"), Except.ok (Response.done "t1"),
         Except.ok (Response.other "y")]).2.2 = [Except.ok (Response.other "y")] ∧
     (parse_get_quota_root "t1"
        [Except.ok (Response.other "x"), Except.ok (Response.done "t1"),
         Except.ok (Response.other "y")]).2.1 = rootUnsolicited [Response.other "x"] ∧
     Response.done "t1" ∉ quotaUnsolicited [Response.other "x"] ∧
     Response.done "t1" ∉ rootUnsolicited [Response.other "x"]) :=
  ⟨by decide,
   C1_collector_stops_at_unique_completion "t1" [Response.other "x"]
     [Response.other "y"] (by decide)⟩

/-- C2: for every frame sequence in which no Quota payload frame precedes
the completion frame for the given tag, parse_get_quota returns the
ExpectedResponseNotFound (required response missing) error; and whenever the
keep-last accumulation over the preceding frames produced some Quota, that
Quota is returned. -/
theorem C2_single_result_missing_or_found (command_tag : String) (pre : List Response)
    (rest : List (Except String Response))
    (h : ∀ r ∈ pre, r ≠ Response.done command_tag) :
    ((∀ r ∈ pre, isQuotaFrame r = false) →
      (parse_get_quota command_tag
          (pre.map Except.ok ++ Except.ok (Response.done command_tag) :: rest)).1
        = Except.error (ImapError.parseExpectedResponseNotFound
            "Quota, no quota response found")) ∧
    (∀ q : Quota, keepLastQuota none pre = some q →
      (parse_get_quota command_tag
          (pre.map Except.ok ++ Except.ok (Response.done command_tag) :: rest)).1
        = Except.ok q) := by
  have hq := parse_get_quota_loop_complete command_tag pre rest none [] h
  have hfst := parse_get_quota_fst command_tag
    (pre.map Except.ok ++ Except.ok (Response.done command_tag) :: rest)
  constructor
  · intro hnone
    rw [hfst, hq]
    simp [keepLastQuota_of_no_quota none pre hnone]
  · intro q hsome
    rw [hfst, hq]
    simp [hsome]

theorem C2_witness :
    ((∀ r ∈ [Response.other "x"], r ≠ Response.done "t2") ∧
     (∀ r ∈ [Response.other "x"], isQuotaFrame r = false)) ∧
    (((∀ r ∈ [Response.other "x"], isQuotaFrame r = false) →
      (parse_get_quota "t2"
          [Except.ok (Response.other "x"), Except.ok (Response.done "t2")]).1
        = Except.error (ImapError.parseExpectedResponseNotFound
            "Quota, no quota response found")) ∧
     (∀ q : Quota, keepLastQuota none [Response.other "x"] = some q →
      (parse_get_quota "t2"
          [Except.ok (Response.other "x"), Except.ok (Response.done "t2")]).1
        = Except.ok q)) :=
  ⟨⟨by decide, by decide⟩,
   C2_single_result_missing_or_found "t2" [Response.other "x"] [] (by decide)⟩

/-- C3: for every frame sequence in which no QuotaRoot or Quota payload
frame precedes the completion frame for the given tag, parse_get_quota_root
succeeds with two empty sequences; the absence of matching payloads is not
an error. -/
theorem C3_multi_result_empty_ok (command_tag : String) (pre : List Response)
    (rest : List (Except String Response))
    (h1 : ∀ r ∈ pre, r ≠ Response.done command_tag)
    (h2 : ∀ r ∈ pre, isQuotaOrRootFrame r = false) :
    (parse_get_quota_root command_tag
        (pre.map Except.ok ++ Except.ok (Response.done command_tag) :: rest)).1
      = Except.ok ([], []) := by
  unfold parse_get_quota_root
  rw [parse_get_quota_root_loop_complete command_tag pre rest [] [] [] h1]
  simp [rootsOf_of_no_payload pre h2, quotasOf_of_no_payload pre h2]

theorem C3_witness :
    ((∀ r ∈ [Response.other "x"], r ≠ Response.done "t3") ∧
     (∀ r ∈ [Response.other "x"], isQuotaOrRootFrame r = false)) ∧
    (parse_get_quota_root "t3"
        [Except.ok (Response.other "x"), Except.ok (Response.done "t3")]).1
      = Except.ok ([], []) :=
  ⟨⟨by decide, by decide⟩,
   C3_multi_result_empty_ok "t3" [Response.other "x"] [] (by decide) (by decide)⟩

/-- C4 counterexample: the claim says that when the frame source ends before
the completion frame both collectors return an error. On the code,
parse_get_quota_root on the exhausted empty source returns Ok with two empty
sequences, and parse_get_quota on a source exhausted after a Quota payload
returns Ok with that Quota. -/
theorem C4_counterexample_exhausted_source_ok :
    parse_get_quota_root "a1" [] = (Except.ok ([], []), [], []) ∧
    (parse_get_quota "a1" [Except.ok (Response.quota ⟨"STORAGE", 10, 100⟩)]).1
      = Except.ok ⟨"STORAGE", 10, 100⟩ :=
  ⟨rfl, rfl⟩

/-- C4 (amended): if the frame source ends before the completion frame for
the tag is observed, the collection loop terminates normally:
parse_get_quota_root returns Ok with the accumulated sequences, and
parse_get_quota returns the missing-response error exactly when no Quota
payload was accumulated, otherwise Ok with the last accumulated Quota;
source exhaustion itself is never reported as an error. -/
theorem C4_amended_exhaustion_behavior (command_tag : String) (pre : List Response)
    (h : ∀ r ∈ pre, r ≠ Response.done command_tag) :
    (parse_get_quota_root command_tag (pre.map Except.ok)).1
      = Except.ok (rootsOf pre, quotasOf pre) ∧
    ((∀ r ∈ pre, isQuotaFrame r = false) →
      (parse_get_quota command_tag (pre.map Except.ok)).1
        = Except.error (ImapError.parseExpectedResponseNotFound
            "Quota, no quota response found")) ∧
    (∀ q : Quota, keepLastQuota none pre = some q →
      (parse_get_quota command_tag (pre.map Except.ok)).1 = Except.ok q) := by
  have hq := parse_get_quota_loop_exhausted command_tag pre none [] h
  have hr := parse_get_quota_root_loop_exhausted command_tag pre [] [] [] h
  have hfst := parse_get_quota_fst command_tag (pre.map Except.ok)
  refine ⟨?_, ?_, ?_⟩
  · unfold parse_get_quota_root; rw [hr]; simp
  · intro hnone; rw [hfst, hq]; simp [keepLastQuota_of_no_quota none pre hnone]
  · intro q hsome; rw [hfst, hq]; simp [hsome]

theorem C4_witness :
    (∀ r ∈ [Response.quota ⟨"S", 1, 2⟩], r ≠ Response.done "t4") ∧
    ((parse_get_quota_root "t4" [Except.ok (Response.quota ⟨"S", 1, 2⟩)]).1
       = Except.ok (rootsOf [Response.quota ⟨"S", 1, 2⟩],
           quotasOf [Response.quota ⟨"S", 1, 2⟩]) ∧
     ((∀ r ∈ [Response.quota ⟨"S", 1, 2⟩], isQuotaFrame r = false) →
      (parse_get_quota "t4" [Except.ok (Response.quota ⟨"S", 1, 2⟩)]).1
        = Except.error (ImapError.parseExpectedResponseNotFound
            "Quota, no quota response found")) ∧
     (∀ q : Quota, keepLastQuota none [Response.quota ⟨"S", 1, 2⟩] = some q →
      (parse_get_quota "t4" [Except.ok (Response.quota ⟨"S", 1, 2⟩)]).1
        = Except.ok q)) :=
  ⟨by decide,
   C4_amended_exhaustion_behavior "t4" [Response.quota ⟨"S", 1, 2⟩] (by decide)⟩

/-- C5: on a successful compression negotiation the session is rebuilt so
that its only transport is the ImapStream over the caller-wrapped
DeflateStream around the raw transport taken out of the old connection:
every subsequent read or write of the returned session goes through that
DeflateStream wrapper, whose innermost stream is exactly the old raw
transport. -/
theorem C5_transport_substitution {T S : Type} (sess : Session T)
    (f : DeflateStream T → S) :
    Session.compress sess (Except.ok ()) f
      = Except.ok
          { conn := { stream := ImapStream.new
                        (f (DeflateStream.new (Connection.into_inner sess.conn))),
                      request_ids := IdGenerator.new },
            unsolicited_responses_tx := sess.unsolicited_responses_tx,
            unsolicited_responses := sess.unsolicited_responses } ∧
    DeflateStream.get_ref (DeflateStream.new (Connection.into_inner sess.conn))
      = Connection.into_inner sess.conn :=
  ⟨rfl, rfl⟩

/-- C6: Session::compress takes the session by value; when the negotiation
command fails (with any error: failed completion status, I/O or parse
error), that error is propagated verbatim to the caller, and no session is
returned on the error path, so the original session cannot be recovered
from the result of this operation. -/
theorem C6_compress_failure_propagates {T S : Type} (sess : Session T)
    (e : ImapError) (f : DeflateStream T → S) :
    Session.compress sess (Except.error e) f = Except.error e ∧
    ∀ s : Session S, Session.compress sess (Except.error e) f ≠ Except.ok s := by
  refine ⟨rfl, ?_⟩
  intro s hs
  exact Except.noConfusion hs

/-- C7: on successful negotiation the rebuilt connection carries a freshly
constructed IdGenerator whose counter is back at its initial value 0,
whatever the counter of the consumed session was: the correlation-tag
numbering restarts rather than continuing. -/
theorem C7_fresh_id_generator {T S : Type} (sess : Session T)
    (f : DeflateStream T → S) :
    Except.map (fun s => s.conn.request_ids) (Session.compress sess (Except.ok ()) f)
      = Except.ok IdGenerator.new ∧
    IdGenerator.new.next = 0 :=
  ⟨rfl, rfl⟩

/-- C8: accumulation policy. parse_get_quota keeps only the last Quota
payload seen before the completion frame; parse_get_quota_root appends every
QuotaRoot payload and every Quota payload in arrival order to its two result
sequences. The two concrete conjuncts are the scenarios of the spec: frames
[Quota(STORAGE,10,100), tag5-complete] yield that Quota, and frames
[QuotaRoot(INBOX,[root1]), Quota(root1,3,50), tag7-complete] yield the pair
of singleton sequences. -/
theorem C8_accumulation_policy (command_tag : String) (a b pre : List Response)
    (q : Quota) (rest rest2 : List (Except String Response))
    (h1 : ∀ r ∈ a, r ≠ Response.done command_tag)
    (h2 : ∀ r ∈ b, r ≠ Response.done command_tag)
    (h3 : ∀ r ∈ b, isQuotaFrame r = false)
    (h4 : ∀ r ∈ pre, r ≠ Response.done command_tag) :
    (parse_get_quota command_tag
        ((a ++ Response.quota q :: b).map Except.ok
          ++ Except.ok (Response.done command_tag) :: rest)).1 = Except.ok q ∧
    (parse_get_quota_root command_tag
        (pre.map Except.ok ++ Except.ok (Response.done command_tag) :: rest2)).1
      = Except.ok (rootsOf pre, quotasOf pre) ∧
    parse_get_quota "5" [Except.ok (Response.quota ⟨"STORAGE", 10, 100⟩),
        Except.ok (Response.done "5")]
      = (Except.ok ⟨"STORAGE", 10, 100⟩, [], []) ∧
    parse_get_quota_root "7" [Except.ok (Response.quotaRoot ⟨"INBOX", ["root1"]⟩),
        Except.ok (Response.quota ⟨"root1", 3, 50⟩), Except.ok (Response.done "7")]
      = (Except.ok ([⟨"INBOX", ["root1"]⟩], [⟨"root1", 3, 50⟩]), [], []) := by
  have hall : ∀ r ∈ a ++ Response.quota q :: b, r ≠ Response.done command_tag := by
    intro r hr
    rcases List.mem_append.mp hr with hra | hrb
    · exact h1 r hra
    · rcases List.mem_cons.mp hrb with hq | hb
      · subst hq; intro hc; exact Response.noConfusion hc
      · exact h2 r hb
  have hloop := parse_get_quota_loop_complete command_tag
    (a ++ Response.quota q :: b) rest none [] hall
  have hfst := parse_get_quota_fst command_tag
    ((a ++ Response.quota q :: b).map Except.ok
      ++ Except.ok (Response.done command_tag) :: rest)
  have hlast : keepLastQuota none (a ++ Response.quota q :: b) = some q := by
    rw [keepLastQuota_append]
    show keepLastQuota (some q) b = some q
    exact keepLastQuota_of_no_quota (some q) b h3
  refine ⟨?_, ?_, rfl, rfl⟩
  · rw [hfst, hloop]; simp [hlast]
  · unfold parse_get_quota_root
    rw [parse_get_quota_root_loop_complete command_tag pre rest2 [] [] [] h4]
    simp

theorem C8_witness :
    ((∀ r ∈ ([] : List Response), r ≠ Response.done "t8") ∧
     (∀ r ∈ [Response.other "x"], r ≠ Response.done "t8") ∧
     (∀ r ∈ [Response.other "x"], isQuotaFrame r = false) ∧
     (∀ r ∈ [Response.quotaRoot ⟨"INBOX", ["r"]⟩], r ≠ Response.done "t8")) ∧
    ((parse_get_quota "t8"
        (([] ++ Response.quota ⟨"S", 1, 2⟩ :: [Response.other "x"]).map Except.ok
          ++ Except.ok (Response.done "t8") :: [])).1 = Except.ok ⟨"S", 1, 2⟩ ∧
     (parse_get_quota_root "t8"
        ([Response.quotaRoot ⟨"INBOX", ["r"]⟩].map Except.ok
          ++ Except.ok (Response.done "t8") :: [])).1
       = Except.ok (rootsOf [Response.quotaRoot ⟨"INBOX", ["r"]⟩],
           quotasOf [Response.quotaRoot ⟨"INBOX", ["r"]⟩]) ∧
     parse_get_quota "5" [Except.ok (Response.quota ⟨"STORAGE", 10, 100⟩),
        Except.ok (Response.done "5")]
      = (Except.ok ⟨"STORAGE", 10, 100⟩, [], []) ∧
     parse_get_quota_root "7" [Except.ok (Response.quotaRoot ⟨"INBOX", ["root1"]⟩),
        Except.ok (Response.quota ⟨"root1", 3, 50⟩), Except.ok (Response.done "7")]
      = (Except.ok ([⟨"INBOX", ["root1"]⟩], [⟨"root1", 3, 50⟩]), [], [])) :=
  ⟨⟨by decide, by decide, by decide, by decide⟩,
   C8_accumulation_policy "t8" [] [Response.other "x"]
     [Response.quotaRoot ⟨"INBOX", ["r"]⟩] ⟨"S", 1, 2⟩ [] []
     (by decide) (by decide) (by decide) (by decide)⟩

/-- C9: unwrapping a freshly built DeflateStream returns exactly the inner
transport it was built from, and get_ref and get_mut expose that same
innermost transport; moreover on any DeflateStream the three accessors
agree on the innermost transport. -/
theorem C9_deflate_stream_roundtrip {T : Type} (s : T) (d : DeflateStream T) :
    DeflateStream.into_inner (DeflateStream.new s) = s ∧
    DeflateStream.get_ref (DeflateStream.new s) = s ∧
    DeflateStream.get_mut (DeflateStream.new s) = s ∧
    DeflateStream.get_ref d = DeflateStream.into_inner d ∧
    DeflateStream.get_mut d = DeflateStream.into_inner d :=
  ⟨rfl, rfl, rfl, rfl, rfl⟩

/-- C10: on successful negotiation the returned session carries the very
same unsolicited-response sender and receiver handles as the consumed
session; only the connection component is replaced. -/
theorem C10_unsolicited_channel_preserved {T S : Type} (sess : Session T)
    (f : DeflateStream T → S) :
    Except.map (fun s => (s.unsolicited_responses_tx, s.unsolicited_responses))
        (Session.compress sess (Except.ok ()) f)
      = Except.ok (sess.unsolicited_responses_tx, sess.unsolicited_responses) :=
  rfl

end AsyncImap
